import Mathlib

/-!
Verification of the conversational-context and self-improvement core of the
local-ollama-agent repository.  The Python services are shallowly embedded:
strings are manipulated as `List Char` (one entry per Unicode code point,
matching Python's `str` indexing), ISO-8601 timestamps handled through
`datetime` become integer seconds, `datetime.now()` / `uuid.uuid4()` /
Ollama calls / file I/O become explicit parameters, and a fallible call is
an `Except` value.  Python's `list(set(xs))` has an unspecified element
order; it is modelled as `List.dedup` (first occurrences kept), and every
theorem about it only uses membership and duplicate-freedom, which agree
with any order the interpreter may choose.
-/

namespace OllamaAgent

/-- Python `str.isspace` characters relevant to `strip`/`split`:
space, tab, newline, carriage return, vertical tab, form feed. -/
def pyIsSpace (c : Char) : Bool :=
  c = ' ' || c = '\t' || c = '\n' || c = '\r' || c = '\x0b' || c = '\x0c'

/-- Python `str.strip()` with no arguments: drop whitespace on both ends. -/
def pyStrip (s : List Char) : List Char :=
  ((s.dropWhile pyIsSpace).reverse.dropWhile pyIsSpace).reverse

/-- Fuel-driven worker for `pySplit`; the fuel only serves termination and
kernel reducibility, `pySplit` always supplies enough. -/
def pySplitFuel (sep : List Char) : Nat → List Char → List Char → List (List Char)
  | 0, s, cur => [cur ++ s]
  | fuel + 1, s, cur =>
    match s with
    | [] => [cur]
    | c :: rest =>
      if sep.isPrefixOf s then
        cur :: pySplitFuel sep fuel (s.drop sep.length) []
      else
        pySplitFuel sep fuel rest (cur ++ [c])

/-- Python `str.split(sep)` for a non-empty separator: non-overlapping
leftmost occurrences, empty pieces kept. -/
def pySplit (sep s : List Char) : List (List Char) :=
  pySplitFuel sep (s.length + 1) s []

/-- Fuel-driven worker for `pySplitWs`. -/
def pySplitWsFuel : Nat → List Char → List (List Char)
  | 0, _ => []
  | fuel + 1, s =>
    match s.dropWhile pyIsSpace with
    | [] => []
    | c :: rest =>
      let w := (c :: rest).takeWhile (fun x => !pyIsSpace x)
      w :: pySplitWsFuel fuel ((c :: rest).drop w.length)

/-- Python `str.split()` with no arguments: split on whitespace runs,
no empty pieces. -/
def pySplitWs (s : List Char) : List (List Char) :=
  pySplitWsFuel (s.length + 1) s

/-- Fuel-driven worker for `pyReplace`. -/
def pyReplaceFuel (pat repl : List Char) : Nat → List Char → List Char
  | 0, s => s
  | fuel + 1, s =>
    match s with
    | [] => []
    | c :: rest =>
      if pat.isPrefixOf s then
        repl ++ pyReplaceFuel pat repl fuel (s.drop pat.length)
      else
        c :: pyReplaceFuel pat repl fuel rest

/-- Python `str.replace(old, new)` for a non-empty `old`: replace every
non-overlapping occurrence, left to right. -/
def pyReplace (pat repl s : List Char) : List Char :=
  pyReplaceFuel pat repl (s.length + 1) s

/-- Python `sub in s`: substring membership. -/
def containsSub (pat : List Char) : List Char → Bool
  | [] => pat.isPrefixOf []
  | c :: rest => pat.isPrefixOf (c :: rest) || containsSub pat rest

/-! ## ContextManager (src/app/services/context_manager.py) -/

/-- Dataclass `ConversationTurn`.  `timestamp` (set from `datetime.now()`)
is an integer clock reading; `metadata` values are modelled as strings. -/
structure ConversationTurn where
  turn_id : String
  user_request : String
  assistant_response : String
  generated_code : Option String := none
  filename : Option String := none
  timestamp : Int := 0
  metadata : List (String × String) := []
deriving DecidableEq

/-- Dataclass `CodeContext`. -/
structure CodeContext where
  language : String
  framework : Option String
  project_type : String
  current_files : List String
  dependencies : List String
  main_functionality : String
deriving DecidableEq

/-- Dataclass `ConversationSession`; the two `datetime` fields are integer
clock readings. -/
structure ConversationSession where
  session_id : String
  user_id : Option String := none
  created_at : Int
  last_activity : Int
  turns : List ConversationTurn
  code_context : Option CodeContext
  session_summary : String := ""
deriving DecidableEq

/-- `self.max_context_turns = 10`. -/
def max_context_turns : Nat := 10

/-- `self.session_timeout = timedelta(hours=24)`, in seconds. -/
def session_timeout : Int := 24 * 60 * 60

/-- The standard-library exclusion list of `_extract_dependencies`. -/
def stdlibStrings : List String :=
  ["os", "sys", "json", "time", "datetime", "re", "random", "typing"]

/-- The exclusion list at the character-list level the scan works on. -/
def stdlibNames : List (List Char) :=
  stdlibStrings.map String.toList

/-- Dependency computed for a stripped line starting with `"import "`:
`line.replace('import ', '').split()[0].split('.')[0]`. -/
def depOfImportLine (line : List Char) : List Char :=
  (pySplit ['.'] ((pySplitWs (pyReplace "import ".toList [] line)).headD [])).headD []

/-- Dependency computed for a stripped line starting with `"from "`:
`line.split('from ')[1].split(' import')[0].split('.')[0]`. -/
def depOfFromLine (line : List Char) : List Char :=
  (pySplit ['.']
    ((pySplit " import".toList ((pySplit "from ".toList line).getD 1 [])).headD [])).headD []

/-- The accumulation loop of `ContextManager._extract_dependencies`. -/
def extractDepsGo : List (List Char) → List (List Char) → List (List Char)
  | [], deps => deps
  | line :: rest, deps =>
    let l := pyStrip line
    if "import ".toList.isPrefixOf l || "from ".toList.isPrefixOf l then
      let dep := if "import ".toList.isPrefixOf l then depOfImportLine l else depOfFromLine l
      if dep ∈ stdlibNames then extractDepsGo rest deps
      else extractDepsGo rest (deps ++ [dep])
    else extractDepsGo rest deps

/-- `ContextManager._extract_dependencies`. -/
def extract_dependencies (code : String) : List String :=
  (extractDepsGo (pySplit ['\n'] code.toList) []).map (fun l => String.mk l)

/-- `ContextManager._detect_language`. -/
def detect_language (code : String) : String :=
  let cl := code.toList.map Char.toLower
  if ["def ", "import ", "from ", "python"].any (fun k => containsSub k.toList cl) then
    "python"
  else if ["function ", "const ", "let ", "var "].any (fun k => containsSub k.toList cl) then
    "javascript"
  else if ["public class", "public static", "java"].any (fun k => containsSub k.toList cl) then
    "java"
  else
    "unknown"

/-- `ContextManager._detect_framework`. -/
def detect_framework (code : String) : Option String :=
  let cl := code.toList.map Char.toLower
  if containsSub "fastapi".toList cl || containsSub "from fastapi".toList cl then
    some "fastapi"
  else if containsSub "flask".toList cl || containsSub "from flask".toList cl then
    some "flask"
  else if containsSub "django".toList cl then
    some "django"
  else if containsSub "react".toList cl || containsSub "jsx".toList cl then
    some "react"
  else
    none

/-- Python string slice `s[:n]` by code points. -/
def pyTake (n : Nat) (s : String) : String :=
  String.mk (s.toList.take n)

/-- The trailing `if turn.filename:` block of
`ContextManager._update_code_context`: record the generated file name if
absent (`None` and the empty string are both falsy). -/
def add_current_file (s1 : ConversationSession) (fn : Option String) :
    ConversationSession :=
  match fn with
  | none => s1
  | some f =>
    if f = "" then s1
    else
      match s1.code_context with
      | none => s1
      | some ctx2 =>
        if f ∈ ctx2.current_files then s1
        else
          { s1 with
            code_context := some
              { ctx2 with current_files := ctx2.current_files ++ [f] } }

/-- `ContextManager._update_code_context`.  The early return
`if not turn.generated_code` fires for both `None` and the empty string;
`list(set(...))` is modelled as `List.dedup` (see the module comment). -/
def update_code_context (session : ConversationSession) (turn : ConversationTurn) :
    ConversationSession :=
  match turn.generated_code with
  | none => session
  | some code =>
    if code = "" then session
    else
      let language := detect_language code
      let framework := detect_framework code
      let dependencies := extract_dependencies code
      let s1 :=
        match session.code_context with
        | none =>
          { session with
            code_context := some
              { language := language
                framework := framework
                project_type := "unknown"
                current_files := []
                dependencies := dependencies
                main_functionality := pyTake 100 turn.user_request } }
        | some ctx =>
          { session with
            code_context := some
              { ctx with dependencies := (ctx.dependencies ++ dependencies).dedup } }
      add_current_file s1 turn.filename

/-- The session mutation performed by `ContextManager.add_conversation_turn`
once the session is in hand: append the turn, apply the length cap keeping
the first turn, refresh `last_activity`, update the code context. -/
def addTurnToSession (session : ConversationSession) (turn : ConversationTurn)
    (now : Int) : ConversationSession :=
  let turns1 := session.turns ++ [turn]
  let turns2 :=
    if max_context_turns < turns1.length then
      turns1.take 1 ++ turns1.drop (turns1.length - (max_context_turns - 1))
    else turns1
  update_code_context { session with turns := turns2, last_activity := now } turn

/-- The manager's mutable surroundings: `self.sessions` (the in-process
dict) and the per-session JSON files under `context_storage_path`
(modelled by their parsed content). -/
structure ManagerState where
  sessions : List (String × ConversationSession)
  storage : List (String × ConversationSession)
deriving DecidableEq

/-- Lookup in a Python dict modelled as an association list. -/
def dictGet {α : Type} (l : List (String × α)) (k : String) : Option α :=
  match l with
  | [] => none
  | (k2, v) :: rest => if k2 = k then some v else dictGet rest k

/-- Python `d[k] = v`: replace or add the binding. -/
def dictInsert {α : Type} (l : List (String × α)) (k : String) (v : α) :
    List (String × α) :=
  match l with
  | [] => [(k, v)]
  | (k2, v2) :: rest =>
    if k2 = k then (k, v) :: rest else (k2, v2) :: dictInsert rest k v

/-- Python `del d[k]` / `os.remove(file)`. -/
def dictErase {α : Type} (l : List (String × α)) (k : String) : List (String × α) :=
  l.filter (fun p => p.1 != k)

/-- `ContextManager.delete_session` (state part: drop from the dict and
remove the stored file). -/
def delete_session (st : ManagerState) (sid : String) : ManagerState :=
  { sessions := dictErase st.sessions sid, storage := dictErase st.storage sid }

/-- `ContextManager._load_session`: on a hit the parsed session is cached
and returned; no expiry check happens on this path. -/
def load_session (st : ManagerState) (sid : String) :
    ManagerState × Option ConversationSession :=
  match dictGet st.storage sid with
  | none => (st, none)
  | some s => ({ st with sessions := dictInsert st.sessions sid s }, some s)

/-- `ContextManager.get_session` at clock reading `now`. -/
def get_session (st : ManagerState) (sid : String) (now : Int) :
    ManagerState × Option ConversationSession :=
  match dictGet st.sessions sid with
  | some session =>
    if session_timeout < now - session.last_activity then
      (delete_session st sid, none)
    else (st, some session)
  | none => load_session st sid

/-- `ContextManager._save_session`: the `json.dump` either rewrites the
session's file wholesale (`saveOk = true`) or raises and the exception is
caught and printed (`saveOk = false`), leaving the stored file as it was. -/
def save_session (st : ManagerState) (s : ConversationSession) (saveOk : Bool) :
    ManagerState :=
  if saveOk then { st with storage := dictInsert st.storage s.session_id s } else st

/-- The `ConversationTurn` literal built inside `add_conversation_turn`
(`metadata or {}` resolved by the caller, `timestamp` from
`datetime.now()`). -/
def mk_turn (turnId user_request assistant_response : String)
    (generated_code filename : Option String) (metadata : List (String × String))
    (now : Int) : ConversationTurn :=
  { turn_id := turnId
    user_request := user_request
    assistant_response := assistant_response
    generated_code := generated_code
    filename := filename
    timestamp := now
    metadata := metadata }

/-- `ContextManager.add_conversation_turn`.  `turnId` stands for the fresh
`uuid.uuid4()`, `now` for `datetime.now()`, `saveOk` for the fate of the
`json.dump` inside `_save_session`.  Returns the new state and the
function's boolean result. -/
def add_conversation_turn (st : ManagerState) (sid : String)
    (user_request assistant_response : String)
    (generated_code filename : Option String) (metadata : List (String × String))
    (now : Int) (turnId : String) (saveOk : Bool) : ManagerState × Bool :=
  match get_session st sid now with
  | (st1, none) => (st1, false)
  | (st1, some session) =>
    let turn := mk_turn turnId user_request assistant_response generated_code
      filename metadata now
    let s2 := addTurnToSession session turn now
    let st2 := { st1 with sessions := dictInsert st1.sessions sid s2 }
    (save_session st2 s2 saveOk, true)

/-! ## ImprovementService (src/app/services/improvement_service.py) -/

/-- Failure of the external Ollama capability (`ModelUnavailable` /
`ModelTimeout` in the spec's taxonomy). -/
inductive ModelError where
  | unavailable
  | timeout
deriving DecidableEq

/-- Dataclass `ReflectionResult` from dto/self_improvements.py; the float
score is modelled as a rational. -/
structure ReflectionResult where
  score : ℚ
  issues : List String
  suggestions : List String
  overall_assessment : String
deriving DecidableEq

/-- `self.max_iterations = 3`. -/
def default_max_iterations : Nat := 3

/-- `self.min_acceptable_score = 7.5`. -/
def default_min_acceptable_score : ℚ := 7.5

/-- `ImprovementService.perform_self_reflection`: `call` is the outcome of
`ollama_service.generate_response(reflection_prompt)` and `parse` stands
for the JSON-or-fallback extraction of a `ReflectionResult` from its text.
A raising call is absorbed into the fixed default result. -/
def perform_self_reflection (call : Except ModelError String)
    (parse : String → ReflectionResult) : ReflectionResult :=
  match call with
  | .ok text => parse text
  | .error _ =>
    { score := 5
      issues := ["평가 중 오류 발생"]
      suggestions := ["재평가 필요"]
      overall_assessment := "평가를 완료하지 못했습니다." }

/-- Dataclass `ImprovementIteration` from dto/self_improvements.py; the
float `timestamp` is an integer clock reading. -/
structure ImprovementIteration where
  iteration : Nat
  original_response : String
  reflection_result : ReflectionResult
  improved_response : String
  improvement_reason : String
  timestamp : Int
deriving DecidableEq

/-- An exception that escapes the improvement cycle (the
`UnboundLocalError` raised while building the improvement prompt). -/
inductive PyError where
  | unboundLocal
deriving DecidableEq

/-- Python truthiness of an optional string: `None` and `""` are falsy. -/
def pyTruthy (o : Option String) : Bool :=
  match o with
  | none => false
  | some s => s != ""

/-- Whether the local `improvement_history_guidance` is assigned before
the final f-string of `_generate_improved_response`.  Its initialisation
to `""` sits inside `if context_info:` (improvement_service.py line 215),
and the only other assignment sits inside the history-inspection block
(`session_id` truthy, dict entry present, `[-3:]` slice non-empty).
`context_info` is what `get_context_for_llm(session_id)` returns and
`history` the entry of `self.improvement_history` for `session_id`
(`none` when the key is absent). -/
def guidanceBound (session_id : Option String) (context_info : String)
    (history : Option (List ImprovementIteration)) : Bool :=
  let bound1 := pyTruthy session_id && context_info != ""
  let bound2 :=
    pyTruthy session_id &&
      (match history with
       | some l => !(l.drop (l.length - 3)).isEmpty
       | none => false)
  bound1 || bound2

/-- The `try`/`except` core of `_generate_improved_response`: the guarded
model call, whose exception is caught and answered with the original
response unchanged. -/
def guarded_model_call (call : Except ModelError String)
    (original_response : String) : String :=
  match call with
  | .ok improved => improved
  | .error _ => original_response

/-- `ImprovementService._generate_improved_response`: `call` is the
outcome of `ollama_service.generate_response(improvement_prompt)`.  When
`improvement_history_guidance` is left unassigned, building the prompt
raises `UnboundLocalError` before the guarded model call, and nothing
catches it; otherwise the model call runs and its failure is absorbed. -/
def generate_improved_response (call : Except ModelError String)
    (original_response : String) (session_id : Option String)
    (context_info : String) (history : Option (List ImprovementIteration)) :
    Except PyError String :=
  if guidanceBound session_id context_info history then
    Except.ok (guarded_model_call call original_response)
  else
    Except.error PyError.unboundLocal

/-- The `for iteration in range(max_iterations)` loop of
`ImprovementService.perform_improvement_cycle`.  `reflect i` is the
`ReflectionResult` of the reflection pass run at loop index `i` and
`revise i current` the outcome of the model call inside the revision of
loop index `i`; `context_info` and `history` are fixed across the cycle
because the session state does not change while it runs.  The `Nat`
component counts executed revision steps (instrumentation; the Python
function returns only the text); an `UnboundLocalError` raised by a
revision step propagates out of the loop. -/
def improveLoop (minScore : ℚ) (reflect : Nat → ReflectionResult)
    (revise : Nat → String → Except ModelError String)
    (session_id : Option String) (context_info : String)
    (history : Option (List ImprovementIteration)) :
    Nat → Nat → String → Nat → Except PyError (String × Nat)
  | 0, _, current, revs => .ok (current, revs)
  | remaining + 1, i, current, revs =>
    if minScore ≤ (reflect i).score then .ok (current, revs)
    else
      match generate_improved_response (revise i current) current session_id
          context_info history with
      | .error e => .error e
      | .ok improved =>
        improveLoop minScore reflect revise session_id context_info history
          remaining (i + 1) improved (revs + 1)

/-- The history initialisation at the top of `perform_improvement_cycle`:
for a truthy session id an absent dict entry is set to `[]`. -/
def historyInit (session_id : Option String)
    (history : Option (List ImprovementIteration)) :
    Option (List ImprovementIteration) :=
  if pyTruthy session_id then some (history.getD []) else history

/-- `ImprovementService.perform_improvement_cycle` (text result plus the
revision-step count, or the escaping exception). -/
def perform_improvement_cycle (maxIterations : Nat) (minScore : ℚ)
    (reflect : Nat → ReflectionResult)
    (revise : Nat → String → Except ModelError String)
    (session_id : Option String) (context_info : String)
    (history0 : Option (List ImprovementIteration))
    (initial_response : String) : Except PyError (String × Nat) :=
  improveLoop minScore reflect revise session_id context_info
    (historyInit session_id history0) maxIterations 0 initial_response 0

/-- `k` successive revision steps starting at loop index `i`: the text the
cycle holds after revising `k` times with no acceptance in between. -/
def applyRevisions (revise : Nat → String → Except ModelError String) :
    Nat → Nat → String → String
  | _, 0, s => s
  | i, k + 1, s => applyRevisions revise (i + 1) k (guarded_model_call (revise i s) s)

/-! ## Response parser (src/app/services/facade/code_generation_facade_service.py)

`_parse_response` is driven by the regex
`r'(?:[a-zA-Z0-9+\-#]*\n)?(.*?)'` between triple-backtick fences, with
`re.DOTALL`, via `re.findall`; the matched blocks are then removed from the
text with one `re.sub` per block and the remainder cleaned.  The embedding
reproduces the backtracking behaviour of those patterns directly. -/

/-- The backtick character (the fence delimiter). -/
def tick : Char := Char.ofNat 96

/-- A triple-backtick fence. -/
def fence : List Char := [tick, tick, tick]

/-- The regex character class `[a-zA-Z0-9+\-#]` of the language tag. -/
def isTagChar (c : Char) : Bool :=
  (('a' ≤ c && c ≤ 'z') || ('A' ≤ c && c ≤ 'Z') || ('0' ≤ c && c ≤ '9')
    || c = '+' || c = '-' || c = '#')

/-- Split at the first occurrence of a triple backtick: `some (pre, post)`
with `s = pre ++ fence ++ post` and no fence starting inside `pre`. -/
def splitAtFence : List Char → Option (List Char × List Char)
  | [] => none
  | c :: rest =>
    if fence.isPrefixOf (c :: rest) then some ([], rest.drop 2)
    else (splitAtFence rest).map (fun pq => (c :: pq.1, pq.2))

/-- `re.findall(r'(?:[a-zA-Z0-9+\-#]*\n)?(.*?)', response, re.DOTALL)`
restricted to fenced regions: after an opening fence the maximal run of tag
characters followed by a newline is consumed when present, the lazy group
then captures up to the next fence.  When no closing fence remains, no
match at or after this opening fence is possible, so the scan ends. -/
def findBlocksFuel : Nat → List Char → List (List Char)
  | 0, _ => []
  | fuel + 1, s =>
    match splitAtFence s with
    | none => []
    | some (_, t) =>
      let run := t.takeWhile isTagChar
      let rest := t.drop run.length
      let contentStart :=
        match rest with
        | c :: r2 => if c = '\n' then r2 else t
        | [] => t
      match splitAtFence contentStart with
      | none => []
      | some (content, after2) => content :: findBlocksFuel fuel after2

/-- All fenced code blocks of a reply, in order of appearance. -/
def findBlocks (s : List Char) : List (List Char) :=
  findBlocksFuel (s.length + 1) s

/-- Python `max(code_matches, key=len)`: the first block of maximal
length. -/
def maxByLen (l : List (List Char)) : List Char :=
  match l with
  | [] => []
  | h :: t => t.foldl (fun acc x => if acc.length < x.length then x else acc) h

/-- The `\n?` then fence tail of the removal pattern, preferring to consume
the newline: returns the remainder after the closing fence. -/
def removalTail (v : List Char) : Option (List Char) :=
  match v with
  | c :: r =>
    if c = '\n' && fence.isPrefixOf r then some (r.drop 3)
    else if fence.isPrefixOf v then some (v.drop 3)
    else none
  | [] => none

/-- Match the escaped block text then the pattern tail at `u`. -/
def removalMid (m u : List Char) : Option (List Char) :=
  if m.isPrefixOf u then removalTail (u.drop m.length) else none

/-- The `\n?` before the block text, greedy (consume the newline first,
fall back to the empty alternative). -/
def removalNl (m t2 : List Char) : Option (List Char) :=
  match t2 with
  | c :: r =>
    if c = '\n' then
      match removalMid m r with
      | some out => some out
      | none => removalMid m t2
    else removalMid m t2
  | [] => removalMid m t2

/-- Backtracking over the greedy `[a-zA-Z0-9+\-#]*` of the removal
pattern: try consuming `r` tag characters, longest first. -/
def removalRuns (m t : List Char) : Nat → Option (List Char)
  | 0 => removalNl m t
  | r + 1 =>
    match removalNl m (t.drop (r + 1)) with
    | some out => some out
    | none => removalRuns m t r

/-- One attempt of `re.sub(r'[a-zA-Z0-9+\-#]*\n?' + re.escape(m) + r'\n?', '', _)`
at the start of `s`: `some rest` when the pattern matches a span there. -/
def removalAt (m s : List Char) : Option (List Char) :=
  if fence.isPrefixOf s then
    let t := s.drop 3
    removalRuns m t (t.takeWhile isTagChar).length
  else none

/-- Leftmost, non-overlapping global substitution with the empty
replacement, as `re.sub` performs it. -/
def subRemoveFuel (m : List Char) : Nat → List Char → List Char
  | 0, s => s
  | fuel + 1, s =>
    match s with
    | [] => []
    | c :: rest =>
      match removalAt m s with
      | some rem => subRemoveFuel m fuel rem
      | none => c :: subRemoveFuel m fuel rest

/-- Remove every span the removal pattern built from block `m` matches. -/
def subRemove (m s : List Char) : List Char :=
  subRemoveFuel m (s.length + 1) s

/-- Greedy whitespace run then a literal newline (one level of the blank
collapsing pattern): largest `k` within the run such that the character at
position `k` is a newline, returning what follows it. -/
def wsThenNl (t : List Char) : Nat → Option (List Char)
  | 0 =>
    match t with
    | c :: r => if c = '\n' then some r else none
    | [] => none
  | k + 1 =>
    match t.drop (k + 1) with
    | c :: r =>
      if c = '\n' then some r else wsThenNl t k
    | [] => wsThenNl t k

/-- Backtracking over the first whitespace run of the blank-collapsing
pattern: newline positions within the run, largest first, each followed by
an attempt at the second run. -/
def tripleNlAfterFirst (t : List Char) : Nat → Option (List Char)
  | 0 => tripleNlStep t 0
  | k + 1 =>
    match tripleNlStep t (k + 1) with
    | some out => some out
    | none => tripleNlAfterFirst t k
where
  /-- Fix the first newline at offset `k`, then match whitespace and a
  final newline after it. -/
  tripleNlStep (t : List Char) (k : Nat) : Option (List Char) :=
    match t.drop k with
    | c :: r => if c = '\n' then wsThenNl r (r.takeWhile pyIsSpace).length else none
    | [] => none

/-- A match of the pattern for three-or-more blank-separated newlines at
the start of `s`: newline, whitespace, newline, whitespace, newline. -/
def tripleNlAt (s : List Char) : Option (List Char) :=
  match s with
  | c :: t =>
    if c = '\n' then tripleNlAfterFirst t (t.takeWhile pyIsSpace).length else none
  | [] => none

/-- Global leftmost substitution of the triple-newline pattern by a double
newline. -/
def collapseNlFuel : Nat → List Char → List Char
  | 0, s => s
  | fuel + 1, s =>
    match s with
    | [] => []
    | c :: rest =>
      match tripleNlAt s with
      | some rem => '\n' :: '\n' :: collapseNlFuel fuel rem
      | none => c :: collapseNlFuel fuel rest

/-- `CodeGenerationFacade._clean_explanation`. -/
def clean_explanation (explanation : List Char) : List Char :=
  let e := pyStrip (collapseNlFuel (explanation.length + 1) explanation)
  if e.length < 10 then "요청하신 코드가 생성되었습니다.".toList else e

/-- `CodeGenerationFacade._parse_response`: the pair (code, explanation)
derived from one model reply. -/
def parse_response (response : List Char) : List Char × List Char :=
  match findBlocks response with
  | [] => ([], clean_explanation response)
  | b :: bs =>
    let main_code := pyStrip (maxByLen (b :: bs))
    let explanation := (b :: bs).foldl (fun e m => subRemove m e) response
    (main_code, clean_explanation explanation)

/-! ## Helper views and concrete fixtures used by the theorems -/

/-- The dependency list the session's code context currently holds
(empty while no code-bearing turn has arrived). -/
def sessionDeps (s : ConversationSession) : List String :=
  match s.code_context with
  | some ctx => ctx.dependencies
  | none => []

/-- The dependency list of a stored session of the manager state. -/
def stateDeps (st : ManagerState) (sid : String) : List String :=
  match dictGet st.sessions sid with
  | some s => sessionDeps s
  | none => []

/-- A sequence of turn-appends applied to one session, each with its clock
reading. -/
def foldTurns (s0 : ConversationSession) (items : List (ConversationTurn × Int)) :
    ConversationSession :=
  items.foldl (fun s p => addTurnToSession s p.1 p.2) s0

/-- A minimal turn for concrete runs. -/
def wTurn (n : Nat) : ConversationTurn :=
  { turn_id := toString n, user_request := "", assistant_response := "" }

/-- Eleven appends, enough to overflow the ten-turn cap. -/
def c1Inputs : List (ConversationTurn × Int) :=
  (List.range 11).map (fun n => (wTurn n, (n : Int)))

/-- A freshly created session (empty turn list, no code context). -/
def freshSession (sid : String) : ConversationSession :=
  { session_id := sid
    user_id := none
    created_at := 0
    last_activity := 0
    turns := []
    code_context := none }

/-- A reflection oracle that always scores 5.0. -/
def lowReflect : Nat → ReflectionResult :=
  fun _ => { score := 5, issues := [], suggestions := [], overall_assessment := "" }

/-- A reflection oracle whose first pass scores 8.2. -/
def highReflect : Nat → ReflectionResult :=
  fun _ => { score := 8.2, issues := [], suggestions := [], overall_assessment := "ok" }

/-- A revision oracle whose model call always succeeds. -/
def okRevise : Nat → String → Except ModelError String :=
  fun _ s => .ok (s ++ "+")

/-- A manager state holding one fresh session both in the cache and in
durable storage. -/
def oneSessionState (sid : String) : ManagerState :=
  { sessions := [(sid, freshSession sid)]
    storage := [(sid, freshSession sid)] }

/-- A manager state where the session lives only in durable storage, with
`last_activity = 0`. -/
def storedOnlyState (sid : String) : ManagerState :=
  { sessions := []
    storage := [(sid, freshSession sid)] }

/-- A reply whose only fenced block's text also occurs in the prose. -/
def c7Reply : List Char :=
  "The function xyz is shown below.\n```\nxyz\n```".toList

/-- A session whose code context already exists. -/
def ctxSession : ConversationSession :=
  { freshSession "w9" with
    code_context := some
      { language := "python"
        framework := none
        project_type := "unknown"
        current_files := []
        dependencies := ["numpy"]
        main_functionality := "m" } }

/-! ## Theorems -/

/-- The loop never performs more revision steps than it has iterations
left, whenever it returns normally. -/
theorem improveLoop_count_le (minScore : ℚ) (reflect : Nat → ReflectionResult)
    (revise : Nat → String → Except ModelError String)
    (sid : Option String) (ctx : String)
    (hist : Option (List ImprovementIteration)) :
    ∀ (rem i : Nat) (cur : String) (revs : Nat) (s : String) (n : Nat),
      improveLoop minScore reflect revise sid ctx hist rem i cur revs
        = Except.ok (s, n) → n ≤ revs + rem := by
  intro rem
  induction rem with
  | zero =>
    intro i cur revs s n h
    simp only [improveLoop, Except.ok.injEq, Prod.mk.injEq] at h
    omega
  | succ r ih =>
    intro i cur revs s n h
    rw [improveLoop] at h
    split at h
    · simp only [Except.ok.injEq, Prod.mk.injEq] at h
      omega
    · split at h
      · exact absurd h (by simp)
      · have := ih _ _ _ s n h
        omega

/-- With the guidance variable bound and every remaining reflection below
the threshold, the loop runs all its iterations and revises each time. -/
theorem improveLoop_exhaust (minScore : ℚ) (reflect : Nat → ReflectionResult)
    (revise : Nat → String → Except ModelError String)
    (sid : Option String) (ctx : String)
    (hist : Option (List ImprovementIteration))
    (hb : guidanceBound sid ctx hist = true) :
    ∀ (rem i : Nat) (cur : String) (revs : Nat),
      (∀ k, k < rem → (reflect (i + k)).score < minScore) →
      improveLoop minScore reflect revise sid ctx hist rem i cur revs =
        Except.ok (applyRevisions revise i rem cur, revs + rem) := by
  intro rem
  induction rem with
  | zero => intro i cur revs _; simp [improveLoop, applyRevisions]
  | succ r ih =>
    intro i cur revs h
    have h0 : (reflect i).score < minScore := by simpa using h 0 (Nat.succ_pos r)
    rw [improveLoop, if_neg (not_le.mpr h0), generate_improved_response, if_pos hb]
    dsimp only
    have := ih (i + 1) (guarded_model_call (revise i cur) cur) (revs + 1)
      (fun k hk => by
        have := h (k + 1) (by omega)
        simpa [Nat.add_assoc, Nat.add_comm 1 k] using this)
    rw [this]
    have harith : revs + 1 + r = revs + (r + 1) := by omega
    rw [harith]
    rfl

/-- With the guidance variable unbound and a first reflection below the
threshold, the first revision step raises and the loop exits
exceptionally. -/
theorem improveLoop_unbound (minScore : ℚ) (reflect : Nat → ReflectionResult)
    (revise : Nat → String → Except ModelError String)
    (sid : Option String) (ctx : String)
    (hist : Option (List ImprovementIteration))
    (hb : guidanceBound sid ctx hist = false)
    (rem i : Nat) (cur : String) (revs : Nat) (hrem : 0 < rem)
    (hscore : (reflect i).score < minScore) :
    improveLoop minScore reflect revise sid ctx hist rem i cur revs
      = Except.error PyError.unboundLocal := by
  cases rem with
  | zero => omega
  | succ r =>
    rw [improveLoop, if_neg (not_le.mpr hscore), generate_improved_response, hb]
    rfl

/-- C2 counterexample: with `session_id = None` (so the improvement
history guidance is never assigned) and all reflections scoring 5.0
against threshold 7.5, the cycle does not return the last revised
response after three revisions — it raises `UnboundLocalError` on its
first revision step and returns nothing. -/
theorem claim_C2_counterexample :
    (∀ i, i < 3 → (lowReflect i).score < (7.5 : ℚ)) ∧
    perform_improvement_cycle 3 7.5 lowReflect okRevise none "" none "x"
      = Except.error PyError.unboundLocal ∧
    perform_improvement_cycle 3 7.5 lowReflect okRevise none "" none "x"
      ≠ Except.ok (applyRevisions okRevise 0 3 "x", 3) := by
  have hlow : ∀ i, i < 3 → (lowReflect i).score < (7.5 : ℚ) := by
    intro i _
    show (5 : ℚ) < 7.5
    norm_num
  have herr : perform_improvement_cycle 3 7.5 lowReflect okRevise none "" none "x"
      = Except.error PyError.unboundLocal :=
    improveLoop_unbound 7.5 lowReflect okRevise none "" (historyInit none none)
      rfl 3 0 "x" 0 (by omega) (hlow 0 (by omega))
  refine ⟨hlow, herr, ?_⟩
  rw [herr]
  simp

/-- C2 as the code actually behaves: a normally returning cycle never
exceeds `max_iterations` revision steps; under all-low scores the budget
is exhausted and the last revised response returned exactly when the
improvement-history guidance is bound (truthy session id with non-empty
context or previously recorded iterations), while an unbound guidance
makes the first revision step raise `UnboundLocalError`, ending the cycle
exceptionally with zero revisions. -/
theorem claim_C2_amended (maxIterations : Nat) (minScore : ℚ)
    (reflect : Nat → ReflectionResult)
    (revise : Nat → String → Except ModelError String)
    (sid : Option String) (ctx : String)
    (hist0 : Option (List ImprovementIteration)) (initial : String) :
    (∀ (s : String) (n : Nat),
      perform_improvement_cycle maxIterations minScore reflect revise sid ctx
          hist0 initial = Except.ok (s, n) → n ≤ maxIterations) ∧
    ((∀ i, i < maxIterations → (reflect i).score < minScore) →
      (guidanceBound sid ctx (historyInit sid hist0) = true →
        perform_improvement_cycle maxIterations minScore reflect revise sid ctx
            hist0 initial
          = Except.ok (applyRevisions revise 0 maxIterations initial, maxIterations)) ∧
      (guidanceBound sid ctx (historyInit sid hist0) = false → 0 < maxIterations →
        perform_improvement_cycle maxIterations minScore reflect revise sid ctx
            hist0 initial = Except.error PyError.unboundLocal)) := by
  refine ⟨?_, fun h => ⟨?_, ?_⟩⟩
  · intro s n hok
    have := improveLoop_count_le minScore reflect revise sid ctx
      (historyInit sid hist0) maxIterations 0 initial 0 s n hok
    omega
  · intro hb
    have := improveLoop_exhaust minScore reflect revise sid ctx
      (historyInit sid hist0) hb maxIterations 0 initial 0
      (fun k hk => by simpa using h k hk)
    simpa using this
  · intro hb hpos
    exact improveLoop_unbound minScore reflect revise sid ctx
      (historyInit sid hist0) hb maxIterations 0 initial 0 hpos
      (h 0 hpos)

/-- C2 amended at concrete runs: a bound-guidance cycle exhausts its three
iterations with three revisions, and an unbound one raises instead. -/
theorem claim_C2_witness :
    perform_improvement_cycle 3 7.5 lowReflect okRevise (some "s") "ctx" none "x"
      = Except.ok (applyRevisions okRevise 0 3 "x", 3) ∧
    perform_improvement_cycle 3 7.5 lowReflect okRevise none "" none "x"
      = Except.error PyError.unboundLocal :=
  ⟨((claim_C2_amended 3 7.5 lowReflect okRevise (some "s") "ctx" none "x").2
      (fun i _ => by show (5 : ℚ) < 7.5; norm_num)).1 (by decide),
   ((claim_C2_amended 3 7.5 lowReflect okRevise none "" none "x").2
      (fun i _ => by show (5 : ℚ) < 7.5; norm_num)).2 (by decide) (by decide)⟩

/-- C3: when the very first reflection pass meets the threshold, the cycle
performs zero revision steps and returns the initial response unchanged —
for any session id, context and history, since no revision step (and so no
prompt construction) ever runs. -/
theorem claim_C3 (maxIterations : Nat) (minScore : ℚ)
    (reflect : Nat → ReflectionResult)
    (revise : Nat → String → Except ModelError String)
    (sid : Option String) (ctx : String)
    (hist0 : Option (List ImprovementIteration)) (initial : String)
    (h : minScore ≤ (reflect 0).score) :
    perform_improvement_cycle maxIterations minScore reflect revise sid ctx
        hist0 initial = Except.ok (initial, 0) := by
  cases maxIterations with
  | zero => rfl
  | succ n => simp [perform_improvement_cycle, improveLoop, if_pos h]

/-- C3 at the spec's concrete scenario: a first reflection of 8.2 against
threshold 7.5 ends the cycle after one reflection and zero revisions,
even with no session id. -/
theorem claim_C3_witness :
    (7.5 : ℚ) ≤ (highReflect 0).score ∧
    perform_improvement_cycle 3 7.5 highReflect okRevise none "" none "resp"
      = Except.ok ("resp", 0) :=
  ⟨by show (7.5 : ℚ) ≤ 8.2; norm_num,
   claim_C3 3 7.5 highReflect okRevise none "" none "resp"
     (by show (7.5 : ℚ) ≤ 8.2; norm_num)⟩

/-- Recording a file name never touches the turn list. -/
theorem turns_add_current_file (s1 : ConversationSession) (fn : Option String) :
    (add_current_file s1 fn).turns = s1.turns := by
  unfold add_current_file
  rcases fn with _ | f
  · rfl
  · dsimp only
    by_cases hf : f = ""
    · rw [if_pos hf]
    · rw [if_neg hf]
      rcases hcc : s1.code_context with _ | ctx2
      · rfl
      · dsimp only
        split <;> rfl

/-- Updating the code context never touches the turn list (whole
function). -/
theorem turns_update_code_context (s : ConversationSession) (t : ConversationTurn) :
    (update_code_context s t).turns = s.turns := by
  unfold update_code_context
  rcases hgc : t.generated_code with _ | c
  · rfl
  · dsimp only
    by_cases h0 : c = ""
    · rw [if_pos h0]
    · rw [if_neg h0]
      rcases hcc : s.code_context with _ | ctx <;>
        dsimp only <;> rw [turns_add_current_file]

/-- The turn list after one append is the capped append. -/
theorem addTurn_turns (s : ConversationSession) (t : ConversationTurn) (now : Int) :
    (addTurnToSession s t now).turns =
      if max_context_turns < (s.turns ++ [t]).length then
        (s.turns ++ [t]).take 1 ++
          (s.turns ++ [t]).drop ((s.turns ++ [t]).length - (max_context_turns - 1))
      else s.turns ++ [t] := by
  unfold addTurnToSession
  rw [turns_update_code_context]

/-- One capped append on a list already of the shape the cap maintains. -/
theorem capStep {α : Type} (t1 x1 : α) (m : List α) :
    (if max_context_turns < ((t1 :: m.drop (m.length - 9)) ++ [x1]).length then
       ((t1 :: m.drop (m.length - 9)) ++ [x1]).take 1 ++
         ((t1 :: m.drop (m.length - 9)) ++ [x1]).drop
           (((t1 :: m.drop (m.length - 9)) ++ [x1]).length - (max_context_turns - 1))
     else (t1 :: m.drop (m.length - 9)) ++ [x1]) =
    t1 :: (m ++ [x1]).drop (m.length + 1 - 9) := by
  have hd : (m.drop (m.length - 9)).length = m.length - (m.length - 9) :=
    List.length_drop _ _
  have hmx : max_context_turns = 10 := rfl
  have hl : ((t1 :: m.drop (m.length - 9)) ++ [x1]).length
      = (m.drop (m.length - 9)).length + 2 := by
    simp
  by_cases h8 : m.length ≤ 8
  · have h1 : m.length - 9 = 0 := by omega
    have h2 : m.length + 1 - 9 = 0 := by omega
    have hcond : ¬ (max_context_turns < ((t1 :: m.drop (m.length - 9)) ++ [x1]).length) := by
      omega
    rw [if_neg hcond, h1, h2, List.drop_zero, List.drop_zero]
    simp
  · have hcond : max_context_turns < ((t1 :: m.drop (m.length - 9)) ++ [x1]).length := by
      omega
    rw [if_pos hcond]
    have hidx : ((t1 :: m.drop (m.length - 9)) ++ [x1]).length - (max_context_turns - 1)
        = 2 := by
      omega
    rw [hidx]
    by_cases h9 : m.length = 9
    · have h1 : m.length - 9 = 0 := by omega
      have h4 : m.length + 1 - 9 = 1 := by omega
      rw [h1, List.drop_zero, h4]
      simp [List.cons_append, List.take_succ_cons, List.drop_succ_cons]
    · have h5 : 1 ≤ (m.drop (m.length - 9)).length := by omega
      have h6 : m.length - 9 + 1 = m.length - 8 := by omega
      have h7 : m.length + 1 - 9 = m.length - 8 := by omega
      simp only [List.cons_append, List.take_succ_cons, List.take_zero,
        List.drop_succ_cons]
      rw [List.drop_append_of_le_length h5, List.drop_drop, h6, h7,
        List.drop_append_of_le_length (by omega : m.length - 8 ≤ m.length)]
      simp

/-- Invariant of the turn-append fold: after at least one append the turn
list is the first turn followed by the most recent nine of the later
appends. -/
theorem foldTurns_turns (t1p : ConversationTurn × Int) :
    ∀ (rest : List (ConversationTurn × Int)) (s0 : ConversationSession),
      s0.turns = [] →
      (foldTurns s0 (t1p :: rest)).turns =
        t1p.1 :: (rest.map (fun q => q.1)).drop (rest.length - 9) := by
  intro rest
  induction rest using List.reverseRecOn with
  | nil =>
    intro s0 h0
    show (addTurnToSession s0 t1p.1 t1p.2).turns = _
    rw [addTurn_turns, h0]
    simp [max_context_turns]
  | append_singleton xs x ih =>
    intro s0 h0
    have hfold : foldTurns s0 (t1p :: (xs ++ [x]))
        = addTurnToSession (foldTurns s0 (t1p :: xs)) x.1 x.2 := by
      show List.foldl _ s0 ((t1p :: xs) ++ [x]) = _
      rw [List.foldl_append]
      rfl
    rw [hfold, addTurn_turns]
    have hturns := ih s0 h0
    rw [hturns]
    have hm : (xs.map (fun q => q.1)).length = xs.length := List.length_map _ _
    rw [← hm]
    have := capStep t1p.1 x.1 (xs.map (fun q => q.1))
    rw [this]
    simp [hm]

/-- C1: after more than ten appends to a session the turn list holds
exactly ten turns, its first element is the very first turn appended, and
the rest are the most recent nine appends in order. -/
theorem claim_C1 (inputs : List (ConversationTurn × Int)) (s0 : ConversationSession)
    (h0 : s0.turns = []) (hN : max_context_turns < inputs.length) :
    (foldTurns s0 inputs).turns.length = 10 ∧
    (foldTurns s0 inputs).turns.head? = (inputs.map (fun q => q.1)).head? ∧
    (foldTurns s0 inputs).turns.drop 1
      = (inputs.map (fun q => q.1)).drop (inputs.length - 9) := by
  match inputs with
  | [] => simp [max_context_turns] at hN
  | t1p :: rest =>
    rw [foldTurns_turns t1p rest s0 h0]
    have hk : 10 ≤ rest.length := by
      simp [max_context_turns, List.length_cons] at hN
      omega
    refine ⟨?_, by simp, ?_⟩
    · have := List.length_drop (rest.length - 9) (rest.map (fun q => q.1))
      simp only [List.length_cons, this, List.length_map]
      omega
    · have h1 : (t1p :: rest).length - 9 = (rest.length - 9) + 1 := by
        simp [List.length_cons]; omega
      simp only [List.drop_succ_cons, List.map_cons, h1, List.drop_zero]

/-- C1 at a concrete run of eleven appends to a fresh session. -/
theorem claim_C1_witness :
    (foldTurns (freshSession "s") c1Inputs).turns.length = 10 ∧
    (foldTurns (freshSession "s") c1Inputs).turns.head?
      = (c1Inputs.map (fun q => q.1)).head? ∧
    (foldTurns (freshSession "s") c1Inputs).turns.drop 1
      = (c1Inputs.map (fun q => q.1)).drop (c1Inputs.length - 9) :=
  claim_C1 c1Inputs (freshSession "s") rfl (by decide)

/-- The turn just appended is always kept by the length cap. -/
theorem mem_addTurn (s : ConversationSession) (t : ConversationTurn) (now : Int) :
    t ∈ (addTurnToSession s t now).turns := by
  rw [addTurn_turns]
  have hmx : max_context_turns = 10 := rfl
  have hlen : (s.turns ++ [t]).length = s.turns.length + 1 := by simp
  split
  · apply List.mem_append_right
    have hle : (s.turns ++ [t]).length - (max_context_turns - 1) ≤ s.turns.length := by
      omega
    rw [List.drop_append_of_le_length hle]
    exact List.mem_append_right _ (List.mem_singleton.mpr rfl)
  · exact List.mem_append_right _ (List.mem_singleton.mpr rfl)

/-- Inserting a binding makes it the one the dict returns. -/
theorem dictGet_insert {α : Type} (l : List (String × α)) (k : String) (v : α) :
    dictGet (dictInsert l k v) k = some v := by
  induction l with
  | nil => simp [dictInsert, dictGet]
  | cons p rest ih =>
    obtain ⟨k2, v2⟩ := p
    by_cases hk : k2 = k
    · simp [dictInsert, hk, dictGet]
    · simp [dictInsert, hk, dictGet, ih]

/-- C6 counterexample: with the durable write failing (`saveOk = false`),
`add_conversation_turn` still returns `True`, the stored file keeps the
old session without the turn, and the in-memory session has changed. -/
theorem claim_C6_counterexample :
    (add_conversation_turn (oneSessionState "s1") "s1" "req" "resp" none none []
        10 "t1" false).2 = true ∧
    dictGet (add_conversation_turn (oneSessionState "s1") "s1" "req" "resp" none none []
        10 "t1" false).1.storage "s1" = some (freshSession "s1") ∧
    dictGet (add_conversation_turn (oneSessionState "s1") "s1" "req" "resp" none none []
        10 "t1" false).1.sessions "s1" ≠ some (freshSession "s1") := by
  decide

/-- C6 as the code actually behaves: when the durable write of an append
fails, the exception is swallowed, `add_conversation_turn` still reports
success, the appended turn is kept only in the in-memory session, and
durable storage is left at its previous state. -/
theorem claim_C6_amended (st : ManagerState) (sid ur ar : String)
    (gc fn : Option String) (md : List (String × String)) (now : Int)
    (tid : String) (session : ConversationSession)
    (h : (get_session st sid now).2 = some session) :
    (add_conversation_turn st sid ur ar gc fn md now tid false).2 = true ∧
    (add_conversation_turn st sid ur ar gc fn md now tid false).1.storage
      = (get_session st sid now).1.storage ∧
    dictGet (add_conversation_turn st sid ur ar gc fn md now tid false).1.sessions sid
      = some (addTurnToSession session (mk_turn tid ur ar gc fn md now) now) ∧
    mk_turn tid ur ar gc fn md now
      ∈ (addTurnToSession session (mk_turn tid ur ar gc fn md now) now).turns := by
  unfold add_conversation_turn
  rcases hg : get_session st sid now with ⟨st1, o⟩
  rw [hg] at h
  simp only at h
  subst h
  refine ⟨rfl, rfl, ?_, mem_addTurn _ _ _⟩
  exact dictGet_insert _ _ _

/-- C6 amended at a concrete state. -/
theorem claim_C6_witness :
    (add_conversation_turn (oneSessionState "s1") "s1" "r" "a" none none []
        10 "t1" false).2 = true ∧
    (add_conversation_turn (oneSessionState "s1") "s1" "r" "a" none none []
        10 "t1" false).1.storage = (get_session (oneSessionState "s1") "s1" 10).1.storage ∧
    dictGet (add_conversation_turn (oneSessionState "s1") "s1" "r" "a" none none []
        10 "t1" false).1.sessions "s1"
      = some (addTurnToSession (freshSession "s1")
          (mk_turn "t1" "r" "a" none none [] 10) 10) ∧
    mk_turn "t1" "r" "a" none none [] 10
      ∈ (addTurnToSession (freshSession "s1")
          (mk_turn "t1" "r" "a" none none [] 10) 10).turns :=
  claim_C6_amended (oneSessionState "s1") "s1" "r" "a" none none [] 10 "t1"
    (freshSession "s1") (by decide)

/-- C8 counterexample: a session whose `last_activity` lies far beyond the
24-hour timeout, held only in durable storage, is still returned by
`get_session` on the next access instead of being reported not-found. -/
theorem claim_C8_counterexample :
    session_timeout < (200000 : Int) - (freshSession "s8").last_activity ∧
    (get_session (storedOnlyState "s8") "s8" 200000).2 = some (freshSession "s8") := by
  decide

/-- C8 as the code actually behaves: lazy expiry fires only for sessions
held in the in-process cache; a session found only in durable storage is
loaded, cached and returned regardless of its age. -/
theorem claim_C8_amended (st : ManagerState) (sid : String) (now : Int)
    (session : ConversationSession) :
    (dictGet st.sessions sid = some session →
      session_timeout < now - session.last_activity →
      get_session st sid now = (delete_session st sid, none)) ∧
    (dictGet st.sessions sid = none → dictGet st.storage sid = some session →
      get_session st sid now
        = ({ st with sessions := dictInsert st.sessions sid session }, some session)) := by
  constructor
  · intro h1 h2
    unfold get_session
    rw [h1]
    simp only [if_pos h2]
  · intro h1 h2
    unfold get_session load_session
    rw [h1, h2]

/-- C8 amended at the concrete expired-but-only-stored state. -/
theorem claim_C8_witness :
    (dictGet (storedOnlyState "s8").sessions "s8" = some (freshSession "s8") →
      session_timeout < (200000 : Int) - (freshSession "s8").last_activity →
      get_session (storedOnlyState "s8") "s8" 200000
        = (delete_session (storedOnlyState "s8") "s8", none)) ∧
    (dictGet (storedOnlyState "s8").sessions "s8" = none →
      dictGet (storedOnlyState "s8").storage "s8" = some (freshSession "s8") →
      get_session (storedOnlyState "s8") "s8" 200000
        = ({ storedOnlyState "s8" with
              sessions := dictInsert (storedOnlyState "s8").sessions "s8"
                (freshSession "s8") }, some (freshSession "s8"))) :=
  claim_C8_amended (storedOnlyState "s8") "s8" 200000 (freshSession "s8")

/-- Recording a file name never touches the dependency list. -/
theorem sessionDeps_add_current_file (s1 : ConversationSession) (fn : Option String) :
    sessionDeps (add_current_file s1 fn) = sessionDeps s1 := by
  unfold add_current_file
  rcases fn with _ | f
  · rfl
  · dsimp only
    by_cases hf : f = ""
    · rw [if_pos hf]
    · rw [if_neg hf]
      rcases hcc : s1.code_context with _ | ctx2
      · rfl
      · dsimp only
        split
        · rfl
        · simp only [sessionDeps, hcc]

/-- The dependency list after a code-context update, by the shape of the
turn and the pre-state. -/
theorem sessionDeps_update (s : ConversationSession) (t : ConversationTurn) :
    sessionDeps (update_code_context s t) =
      match t.generated_code with
      | none => sessionDeps s
      | some c =>
        if c = "" then sessionDeps s
        else
          match s.code_context with
          | none => extract_dependencies c
          | some ctx => (ctx.dependencies ++ extract_dependencies c).dedup := by
  unfold update_code_context
  rcases hgc : t.generated_code with _ | c
  · rfl
  · dsimp only
    by_cases h0 : c = ""
    · simp only [if_pos h0]
    · simp only [if_neg h0]
      rcases hcc : s.code_context with _ | ctx
      · dsimp only
        rw [sessionDeps_add_current_file]
        rfl
      · dsimp only
        rw [sessionDeps_add_current_file]
        rfl

/-- `addTurnToSession` changes the dependency list exactly as
`update_code_context` does. -/
theorem sessionDeps_addTurn (s : ConversationSession) (t : ConversationTurn) (now : Int) :
    sessionDeps (addTurnToSession s t now) =
      match t.generated_code with
      | none => sessionDeps s
      | some c =>
        if c = "" then sessionDeps s
        else
          match s.code_context with
          | none => extract_dependencies c
          | some ctx => (ctx.dependencies ++ extract_dependencies c).dedup := by
  show sessionDeps (update_code_context _ t) = _
  rw [sessionDeps_update]
  rfl

/-- A dependency already recorded survives any further append. -/
theorem deps_mono_addTurn (s : ConversationSession) (t : ConversationTurn)
    (now : Int) (d : String) (hd : d ∈ sessionDeps s) :
    d ∈ sessionDeps (addTurnToSession s t now) := by
  rw [sessionDeps_addTurn]
  split
  · exact hd
  · split
    · exact hd
    · split
      · next heq =>
        rw [sessionDeps, heq] at hd
        exact absurd hd (List.not_mem_nil d)
      · next ctx heq =>
        rw [sessionDeps, heq] at hd
        exact List.mem_dedup.mpr (List.mem_append_left _ hd)

/-- Every dependency extracted from the appended turn's code is recorded. -/
theorem deps_new_addTurn (s : ConversationSession) (t : ConversationTurn)
    (now : Int) (c : String) (hc : t.generated_code = some c) (d : String)
    (hd : d ∈ extract_dependencies c) :
    d ∈ sessionDeps (addTurnToSession s t now) := by
  rw [sessionDeps_addTurn, hc]
  dsimp only
  by_cases h0 : c = ""
  · subst h0
    have hempty : extract_dependencies "" = ([] : List String) := by decide
    rw [hempty] at hd
    exact absurd hd (List.not_mem_nil d)
  · rw [if_neg h0]
    split
    · exact hd
    · exact List.mem_dedup.mpr (List.mem_append_right _ hd)

/-- A recorded dependency survives a whole fold of appends. -/
theorem deps_mono_fold (items : List (ConversationTurn × Int)) :
    ∀ (s : ConversationSession) (d : String), d ∈ sessionDeps s →
      d ∈ sessionDeps (foldTurns s items) := by
  induction items with
  | nil => intro s d hd; exact hd
  | cons p rest ih =>
    intro s d hd
    exact ih (addTurnToSession s p.1 p.2) d (deps_mono_addTurn s p.1 p.2 d hd)

/-- C9 counterexample: the context-creating append stores the raw
extracted list, so a first code-bearing turn with a repeated import leaves
a duplicate in `code_context.dependencies`. -/
theorem claim_C9_counterexample :
    stateDeps (add_conversation_turn (oneSessionState "s9") "s9" "make code" "done"
        (some "import numpy\nimport numpy") none [] 5 "t1" true).1 "s9"
      = ["numpy", "numpy"] ∧
    ¬ (stateDeps (add_conversation_turn (oneSessionState "s9") "s9" "make code" "done"
        (some "import numpy\nimport numpy") none [] 5 "t1" true).1 "s9").Nodup := by
  decide

/-- C9 as the code actually behaves: the dependency list always contains
every dependency extracted from any turn's generated code, and it is
duplicate-free after every code-bearing append to a session whose code
context already existed; only the context-creating append can leave
duplicates (the raw extracted list is stored without deduplication). -/
theorem claim_C9_amended :
    (∀ (s0 : ConversationSession) (items : List (ConversationTurn × Int))
        (p : ConversationTurn × Int), p ∈ items →
        ∀ c : String, p.1.generated_code = some c →
        ∀ d : String, d ∈ extract_dependencies c →
        d ∈ sessionDeps (foldTurns s0 items)) ∧
    (∀ (s : ConversationSession) (t : ConversationTurn) (now : Int)
        (ctx : CodeContext) (c : String), s.code_context = some ctx →
        t.generated_code = some c → c ≠ "" →
        (sessionDeps (addTurnToSession s t now)).Nodup) := by
  constructor
  · intro s0 items
    induction items generalizing s0 with
    | nil => intro p hp; exact absurd hp (List.not_mem_nil p)
    | cons q rest ih =>
      intro p hp c hc d hd
      rcases List.mem_cons.mp hp with h | h
      · subst h
        exact deps_mono_fold rest (addTurnToSession s0 p.1 p.2) d
          (deps_new_addTurn s0 p.1 p.2 c hc d hd)
      · exact ih (addTurnToSession s0 q.1 q.2) p h c hc d hd
  · intro s t now ctx c hctx hc h0
    rw [sessionDeps_addTurn, hc]
    dsimp only
    rw [if_neg h0, hctx]
    exact List.nodup_dedup _

/-- C9 amended at concrete inputs: a fresh session records the extracted
dependency, and an update-branch append stays duplicate-free. -/
theorem claim_C9_witness :
    "numpy" ∈ sessionDeps (foldTurns (freshSession "w9")
        [(mk_turn "t1" "u" "a" (some "import numpy") none [] 1, 1)]) ∧
    (sessionDeps (addTurnToSession ctxSession
        (mk_turn "t2" "u" "a" (some "import numpy\nimport pandas") none [] 2) 2)).Nodup :=
  ⟨claim_C9_amended.1 (freshSession "w9")
      [(mk_turn "t1" "u" "a" (some "import numpy") none [] 1, 1)]
      (mk_turn "t1" "u" "a" (some "import numpy") none [] 1, 1) (by decide)
      "import numpy" rfl "numpy" (by decide),
   claim_C9_amended.2 ctxSession
      (mk_turn "t2" "u" "a" (some "import numpy\nimport pandas") none [] 2) 2
      { language := "python"
        framework := none
        project_type := "unknown"
        current_files := []
        dependencies := ["numpy"]
        main_functionality := "m" } "import numpy\nimport pandas" rfl rfl (by decide)⟩

/-- The scan loop appends no name from the exclusion list. -/
theorem extractGo_banned :
    ∀ (lines : List (List Char)) (acc : List (List Char)) (b : List Char),
      b ∈ stdlibNames → b ∉ acc → b ∉ extractDepsGo lines acc := by
  intro lines
  induction lines with
  | nil => intro acc b _ hacc; simpa [extractDepsGo] using hacc
  | cons line rest ih =>
    intro acc b hb hacc
    rw [extractDepsGo]
    dsimp only
    split
    · split <;> split
      all_goals
        first
          | exact ih acc b hb hacc
          | (rename_i hdep
             apply ih _ b hb
             intro hmem
             rcases List.mem_append.mp hmem with h | h
             · exact hacc h
             · rw [List.mem_singleton] at h
               subst h
               exact hdep hb)
    · exact ih acc b hb hacc

/-- No standard-library name from the exclusion list ever comes out of
`_extract_dependencies`. -/
theorem banned_not_in_extract (code : String) (b : String) (hb : b ∈ stdlibStrings) :
    b ∉ extract_dependencies code := by
  intro hmem
  unfold extract_dependencies at hmem
  rcases List.mem_map.mp hmem with ⟨lc, hlc, hmk⟩
  have hbl : b.toList ∈ stdlibNames := List.mem_map_of_mem String.toList hb
  have hlcb : lc = b.toList := by
    have := congrArg String.toList hmk
    simpa using this
  subst hlcb
  exact extractGo_banned _ [] b.toList hbl (List.not_mem_nil _) hlc

/-- A banned-name-free dependency list stays banned-name-free across any
fold of appends. -/
theorem banned_not_in_fold :
    ∀ (items : List (ConversationTurn × Int)) (s : ConversationSession),
      (∀ b ∈ stdlibStrings, b ∉ sessionDeps s) →
      ∀ b ∈ stdlibStrings, b ∉ sessionDeps (foldTurns s items) := by
  intro items
  induction items with
  | nil => intro s hs b hb; exact hs b hb
  | cons p rest ih =>
    intro s hs b hb
    apply ih (addTurnToSession s p.1 p.2) ?_ b hb
    intro b2 hb2
    rw [sessionDeps_addTurn]
    split
    · exact hs b2 hb2
    · split
      · exact hs b2 hb2
      · split
        · exact banned_not_in_extract _ b2 hb2
        · next ctx heq =>
          intro hmem
          rcases List.mem_append.mp (List.mem_dedup.mp hmem) with h | h
          · exact hs b2 hb2 (by rw [sessionDeps, heq]; exact h)
          · exact banned_not_in_extract _ b2 hb2 h

/-- C10: neither the extracted dependency list of any generated code nor
the accumulated `code_context.dependencies` of any session ever contains
one of the excluded standard-library module names. -/
theorem claim_C10 :
    (∀ (code : String) (b : String), b ∈ stdlibStrings →
      b ∉ extract_dependencies code) ∧
    (∀ (s0 : ConversationSession) (items : List (ConversationTurn × Int))
        (b : String), b ∈ stdlibStrings → s0.code_context = none →
      b ∉ sessionDeps (foldTurns s0 items)) := by
  constructor
  · intro code b hb
    exact banned_not_in_extract code b hb
  · intro s0 items b hb h0
    apply banned_not_in_fold items s0 ?_ b hb
    intro b2 _
    rw [sessionDeps, h0]
    exact List.not_mem_nil b2

/-- C10 at a concrete input whose code does import an excluded module. -/
theorem claim_C10_witness :
    "os" ∉ extract_dependencies "import os\nimport numpy" :=
  claim_C10.1 "import os\nimport numpy" "os" (by decide)

/-- The fold inside `max(code_matches, key=len)` dominates its seed and
every traversed element. -/
theorem foldl_maxByLen_ge :
    ∀ (t : List (List Char)) (a : List Char),
      a.length ≤ (t.foldl (fun acc x => if acc.length < x.length then x else acc) a).length ∧
      ∀ x ∈ t,
        x.length ≤ (t.foldl (fun acc x => if acc.length < x.length then x else acc) a).length := by
  intro t
  induction t with
  | nil =>
    intro a
    exact ⟨le_refl _, fun x hx => absurd hx (List.not_mem_nil x)⟩
  | cons y ys ih =>
    intro a
    constructor
    · have h1 := (ih (if a.length < y.length then y else a)).1
      have h2 : a.length ≤ (if a.length < y.length then y else a).length := by
        split <;> omega
      exact le_trans h2 h1
    · intro x hx
      rcases List.mem_cons.mp hx with h | h
      · subst h
        have h1 := (ih (if a.length < x.length then x else a)).1
        have h2 : x.length ≤ (if a.length < x.length then x else a).length := by
          split <;> omega
        exact le_trans h2 h1
      · exact (ih (if a.length < y.length then y else a)).2 x h

/-- `max(code_matches, key=len)` picks a block no shorter than any
other. -/
theorem le_maxByLen (l : List (List Char)) (m : List Char) (hm : m ∈ l) :
    m.length ≤ (maxByLen l).length := by
  match l with
  | [] => exact absurd hm (List.not_mem_nil m)
  | h :: t =>
    rcases List.mem_cons.mp hm with h1 | h1
    · subst h1
      exact (foldl_maxByLen_ge t m).1
    · exact (foldl_maxByLen_ge t h).2 m h1

/-- C7 counterexample: the chosen block's text `xyz` also occurs in the
prose, so the explanation still contains the chosen code after the fenced
blocks are stripped — the claim's "containing none of the chosen block's
content" fails. -/
theorem claim_C7_counterexample :
    (parse_response c7Reply).1 = "xyz".toList ∧
    containsSub "xyz".toList (parse_response c7Reply).2 = true := by
  decide

/-- C7 as the code actually behaves: with fenced blocks present the code
is the longest block (first on ties) trimmed of surrounding whitespace and
the explanation is the reply with the per-block removal patterns applied
and then cleaned — which may still contain the chosen block's text when it
also occurs outside the fences; with no fenced block the code is empty and
the explanation is the whole reply cleaned. -/
theorem claim_C7_amended (response : List Char) :
    (findBlocks response = [] →
      parse_response response = ([], clean_explanation response)) ∧
    (∀ b bs, findBlocks response = b :: bs →
      (parse_response response).1 = pyStrip (maxByLen (b :: bs)) ∧
      (∀ m ∈ b :: bs, m.length ≤ (maxByLen (b :: bs)).length) ∧
      (parse_response response).2
        = clean_explanation ((b :: bs).foldl (fun e m => subRemove m e) response)) := by
  constructor
  · intro h
    unfold parse_response
    rw [h]
  · intro b bs h
    unfold parse_response
    rw [h]
    exact ⟨rfl, fun m hm => le_maxByLen (b :: bs) m hm, rfl⟩

/-- C7 amended at the concrete reply with one fenced block. -/
theorem claim_C7_witness :
    (parse_response c7Reply).1 = pyStrip (maxByLen ["xyz\n".toList]) ∧
    (∀ m ∈ ["xyz\n".toList], m.length ≤ (maxByLen ["xyz\n".toList]).length) ∧
    (parse_response c7Reply).2
      = clean_explanation (["xyz\n".toList].foldl (fun e m => subRemove m e) c7Reply) :=
  (claim_C7_amended c7Reply).2 "xyz\n".toList [] (by decide)

/-- C4: whenever the revision step reaches its model call (the guidance
variable is bound) and that call fails, the step returns the pre-revision
response unchanged instead of raising: the `try`/`except` absorbs the
failure unconditionally, and `_generate_improved_response` answers
`original_response`. -/
theorem claim_C4 (e : ModelError) (original : String) (sid : Option String)
    (ctx : String) (hist : Option (List ImprovementIteration))
    (h : guidanceBound sid ctx hist = true) :
    guarded_model_call (Except.error e) original = original ∧
    generate_improved_response (Except.error e) original sid ctx hist
      = Except.ok original := by
  refine ⟨rfl, ?_⟩
  rw [generate_improved_response, if_pos h]
  rfl

/-- C4 at a concrete bound state with a timed-out model call. -/
theorem claim_C4_witness :
    guidanceBound (some "s") "ctx" none = true ∧
    guarded_model_call (Except.error ModelError.timeout) "orig" = "orig" ∧
    generate_improved_response (Except.error ModelError.timeout) "orig"
        (some "s") "ctx" none = Except.ok "orig" :=
  ⟨by decide,
   (claim_C4 ModelError.timeout "orig" (some "s") "ctx" none (by decide)).1,
   (claim_C4 ModelError.timeout "orig" (some "s") "ctx" none (by decide)).2⟩

/-- C5: a reflection pass whose model call fails returns the default
result with score 5.0 and exactly one issue describing the failed
evaluation, and does not raise. -/
theorem claim_C5 (e : ModelError) (parse : String → ReflectionResult) :
    (perform_self_reflection (Except.error e) parse).score = 5 ∧
    (perform_self_reflection (Except.error e) parse).issues = ["평가 중 오류 발생"] ∧
    (perform_self_reflection (Except.error e) parse).issues.length = 1 :=
  ⟨rfl, rfl, rfl⟩

end OllamaAgent
